import Mathlib

/-!
Verification development for the product-OCR extraction pipeline
(`helpers.py`, `scheamas/v1/schemas.py`, `app.py`).

The Python code is shallowly embedded: dictionaries become ordered
association lists over a dynamic value type `Val`, the regex heuristics of
`_parse_markdown_text` become an executable backtracking matcher over the
exact patterns of the source, pydantic model construction becomes an
explicit validator returning `Except`, and raised/caught exceptions become
`Except` values.  Numeric leaves are modelled over `Int`; no property below
involves fractional values.
-/

namespace ProductOcr

/-- Python `\s` (also the whitespace set of `str.strip`): space, tab,
newline, carriage return, vertical tab, form feed (ASCII model). -/
def pyWs (c : Char) : Bool :=
  c = ' ' || c = '\t' || c = '\n' || c = '\r' || c = '\x0b' || c = '\x0c'

/-- The character list of a string. -/
def chars (s : String) : List Char := s.data

/-- Python `str.strip()` (ASCII whitespace model). -/
def pyStrip (s : String) : String :=
  String.mk (((s.data.dropWhile pyWs).reverse.dropWhile pyWs).reverse)

/-- Python `str.lower()` (ASCII model, as all compared keywords are ASCII). -/
def lcLower (s : String) : String :=
  String.mk (s.data.map Char.toLower)

/-- List version of `str.startswith`. -/
def lcPre : List Char → List Char → Bool
  | [], _ => true
  | _ :: _, [] => false
  | p :: ps, c :: cs => p = c && lcPre ps cs

/-- Python substring containment (`pat in s`). -/
def lcContains : List Char → List Char → Bool
  | s, pat =>
    lcPre pat s ||
      (match s with
       | [] => false
       | _ :: rest => lcContains rest pat)

/-- Python `line.split(":", 1)`: the part after the first colon, when a
colon is present (the source only uses `parts[1]` when `len(parts) == 2`). -/
def splitColonOnce (s : String) : Option String :=
  go s.data
where
  go : List Char → Option String
    | [] => Option.none
    | ':' :: rest => some (String.mk rest)
    | _ :: rest => go rest

/-- Python `str.splitlines()` restricted to the separators that occur in
this pipeline: `\n`, `\r\n` and `\r`.  As in Python, a trailing separator
does not produce a final empty line and the empty string has no lines. -/
def slGo : List Char → List Char → List String
  | [], [] => []
  | [], acc => [String.mk acc.reverse]
  | '\r' :: '\n' :: rest, acc => String.mk acc.reverse :: slGo rest []
  | '\r' :: rest, acc => String.mk acc.reverse :: slGo rest []
  | '\n' :: rest, acc => String.mk acc.reverse :: slGo rest []
  | c :: rest, acc => slGo rest (c :: acc)

/-- Python `str.splitlines()` (see `slGo`). -/
def pySplitlines (s : String) : List String := slGo s.data []

/-- Python `"\n".join(...)`. -/
def joinNL : List String → String
  | [] => ""
  | [s] => s
  | s :: rest => s ++ "\n" ++ joinNL rest

/-- A dynamic Python value, as far as this pipeline inspects values:
strings, booleans, integers, `None`, lists and string-keyed dicts. -/
inductive Val where
  | str (s : String)
  | vbool (b : Bool)
  | int (n : Int)
  | vnone
  | vlist (xs : List Val)
  | vdict (entries : List (String × Val))

/-- Python truthiness of a `Val`. -/
def Val.truthy : Val → Bool
  | .str s => s ≠ ""
  | .vbool b => b
  | .int n => n ≠ 0
  | .vnone => false
  | .vlist xs => ¬ xs.isEmpty
  | .vdict es => ¬ es.isEmpty

/-- A Python dict with string keys, embedded as an insertion-ordered
association list with unique-key maintenance through `alSet`. -/
abbrev AList := List (String × Val)

/-- Dict lookup (`m.get(k)` / `m[k]`): first entry with the key. -/
def alGet : AList → String → Option Val
  | [], _ => Option.none
  | (k2, v2) :: rest, k => if k2 = k then some v2 else alGet rest k

/-- Dict membership (`k in m`). -/
def alHas (m : AList) (k : String) : Bool := (alGet m k).isSome

/-- Dict assignment (`m[k] = v`): overwrite in place, else append,
preserving Python dict insertion order. -/
def alSet : AList → String → Val → AList
  | [], k, v => [(k, v)]
  | (k2, v2) :: rest, k, v =>
    if k2 = k then (k, v) :: rest else (k2, v2) :: alSet rest k v

theorem alGet_alSet_self (m : AList) (k : String) (v : Val) :
    alGet (alSet m k v) k = some v := by
  induction m with
  | nil => simp [alSet, alGet]
  | cons kv rest ih =>
    obtain ⟨k2, v2⟩ := kv
    by_cases h : k2 = k
    · simp [alSet, h, alGet]
    · simp [alSet, h, alGet, ih]

theorem alGet_alSet_of_ne (m : AList) (k k2 : String) (v : Val) (h : k2 ≠ k) :
    alGet (alSet m k v) k2 = alGet m k2 := by
  induction m with
  | nil => simp [alSet, alGet, Ne.symm h]
  | cons kv rest ih =>
    obtain ⟨k3, v3⟩ := kv
    by_cases h3 : k3 = k
    · subst h3
      simp [alSet, alGet, Ne.symm h]
    · by_cases h2 : k3 = k2
      · subst h2
        simp [alSet, alGet, h3]
      · simp [alSet, alGet, h3, h2, ih]

/-- First-defined-wins combination of two optional values. -/
def oFirst (a b : Option Val) : Option Val :=
  match a with
  | some v => some v
  | Option.none => b

theorem oFirst_assoc (a b c : Option Val) :
    oFirst (oFirst a b) c = oFirst a (oFirst b c) := by
  cases a <;> simp [oFirst]

theorem oFirst_none_right (a : Option Val) : oFirst a Option.none = a := by
  cases a <;> rfl

theorem alGet_append (m1 m2 : AList) (k : String) :
    alGet (m1 ++ m2) k = oFirst (alGet m1 k) (alGet m2 k) := by
  induction m1 with
  | nil => simp [alGet, oFirst]
  | cons kv rest ih =>
    obtain ⟨k2, v2⟩ := kv
    by_cases h : k2 = k
    · simp [alGet, h, oFirst]
    · simp [alGet, h, ih]

theorem alGet_eq_none_of_not_mem (m : AList) (k : String)
    (h : k ∉ m.map Prod.fst) : alGet m k = Option.none := by
  induction m with
  | nil => rfl
  | cons kv rest ih =>
    obtain ⟨k2, v2⟩ := kv
    simp only [List.map_cons, List.mem_cons] at h
    push_neg at h
    simp [alGet, Ne.symm h.1, ih h.2]

/-! ### A small backtracking regex engine

Exactly the constructs used by the six `re.search` patterns of
`_parse_markdown_text`: character classes, case-insensitive literals
(all searches pass `re.IGNORECASE`), concatenation, ordered alternation,
greedy `?`, greedy `*`/`+` over a character class, the word boundary
`\b`, and a single capture group.  Greedy/ordered backtracking follows
Python's semantics. -/

inductive RE where
  | eps
  | cls (p : Char → Bool)
  | lit (cs : List Char)
  | seq (a b : RE)
  | alt (a b : RE)
  | opt (a : RE)
  | starC (p : Char → Bool)
  | plusC (p : Char → Bool)
  | wb
  | grp (a : RE)

/-- Word character for `\b` (ASCII model of `\w`). -/
def isWordChar (c : Char) : Bool := c.isAlphanum || c = '_'

/-- Is there a word boundary between the previously consumed character and
the rest of the input? -/
def atBoundary (prev : Option Char) (s : List Char) : Bool :=
  (match prev with
   | some c => isWordChar c
   | Option.none => false)
  != (match s with
      | c :: _ => isWordChar c
      | [] => false)

/-- Matcher continuation: rest of input, previously consumed character,
capture recorded so far; produces the final capture on success. -/
abbrev MCont := List Char → Option Char → Option (List Char) → Option (List Char)

/-- Case-insensitive literal matching. -/
def litM : List Char → List Char → Option Char → Option (List Char) → MCont →
    Option (List Char)
  | [], s, prev, cap, k => k s prev cap
  | _ :: _, [], _, _, _ => Option.none
  | a :: as, c :: cs, _, cap, k =>
    if a.toLower = c.toLower then litM as cs (some c) cap k else Option.none

/-- Greedy star over a character class, longest match first, with
backtracking into the continuation. -/
def starCM (p : Char → Bool) : List Char → Option Char → Option (List Char) →
    MCont → Option (List Char)
  | [], prev, cap, k => k [] prev cap
  | c :: rest, prev, cap, k =>
    if p c then
      (starCM p rest (some c) cap k).orElse (fun _ => k (c :: rest) prev cap)
    else k (c :: rest) prev cap

/-- The backtracking matcher (continuation-passing style). -/
def reM : RE → List Char → Option Char → Option (List Char) → MCont →
    Option (List Char)
  | .eps, s, prev, cap, k => k s prev cap
  | .cls p, s, prev, cap, k =>
    match s with
    | [] => Option.none
    | c :: rest => if p c then k rest (some c) cap else Option.none
  | .lit cs, s, prev, cap, k => litM cs s prev cap k
  | .seq a b, s, prev, cap, k =>
    reM a s prev cap (fun s2 prev2 cap2 => reM b s2 prev2 cap2 k)
  | .alt a b, s, prev, cap, k =>
    (reM a s prev cap k).orElse (fun _ => reM b s prev cap k)
  | .opt a, s, prev, cap, k =>
    (reM a s prev cap k).orElse (fun _ => k s prev cap)
  | .starC p, s, prev, cap, k => starCM p s prev cap k
  | .plusC p, s, prev, cap, k =>
    match s with
    | [] => Option.none
    | c :: rest => if p c then starCM p rest (some c) cap k else Option.none
  | .wb, s, prev, cap, k => if atBoundary prev s then k s prev cap else Option.none
  | .grp a, s, prev, cap, k =>
    reM a s prev cap
      (fun s2 prev2 _ => k s2 prev2 (some (s.take (s.length - s2.length))))

/-- `re.search`: try a match at every start position, leftmost first;
return the text of the capture group on success. -/
def reSearch (r : RE) : List Char → Option Char → Option (List Char)
  | s, prev =>
    match reM r s prev Option.none (fun _ _ cap => cap) with
    | some g => some g
    | Option.none =>
      match s with
      | [] => Option.none
      | c :: rest => reSearch r rest (some c)

/-- `re.search(pattern, line).group(1)` as an `Option String` (every
pattern below has exactly one mandatory group). -/
def reGroupSearch (r : RE) (s : String) : Option String :=
  match reSearch r s.data Option.none with
  | some g => some (String.mk g)
  | Option.none => Option.none

/-- `[:\-]?` -/
def colonDashOpt : RE := .opt (.cls (fun c => c = ':' || c = '-'))

/-- `(?:price|mrp)\s*[:\-]?\s*([₹$]\s?\d+[.,]?\d*)` -/
def priceRE : RE :=
  .seq (.alt (.lit (chars "price")) (.lit (chars "mrp")))
    (.seq (.starC pyWs)
      (.seq colonDashOpt
        (.seq (.starC pyWs)
          (.grp
            (.seq (.cls (fun c => c = '₹' || c = '$'))
              (.seq (.opt (.cls pyWs))
                (.seq (.plusC Char.isDigit)
                  (.seq (.opt (.cls (fun c => c = '.' || c = ',')))
                    (.starC Char.isDigit)))))))))

/-- `\bweight\s*[:\-]?\s*(\d+(?:\.\d+)?\s*(?:g|kg|ml|l))\b` -/
def weightRE : RE :=
  .seq .wb
    (.seq (.lit (chars "weight"))
      (.seq (.starC pyWs)
        (.seq colonDashOpt
          (.seq (.starC pyWs)
            (.seq
              (.grp
                (.seq (.plusC Char.isDigit)
                  (.seq (.opt (.seq (.cls (fun c => c = '.')) (.plusC Char.isDigit)))
                    (.seq (.starC pyWs)
                      (.alt (.lit (chars "g"))
                        (.alt (.lit (chars "kg"))
                          (.alt (.lit (chars "ml")) (.lit (chars "l")))))))))
              .wb)))))

/-- `\bsize\s*[:\-]?\s*(\d+(?:\.\d+)?\s*(?:cm|mm|inch|in))\b` -/
def sizeRE : RE :=
  .seq .wb
    (.seq (.lit (chars "size"))
      (.seq (.starC pyWs)
        (.seq colonDashOpt
          (.seq (.starC pyWs)
            (.seq
              (.grp
                (.seq (.plusC Char.isDigit)
                  (.seq (.opt (.seq (.cls (fun c => c = '.')) (.plusC Char.isDigit)))
                    (.seq (.starC pyWs)
                      (.alt (.lit (chars "cm"))
                        (.alt (.lit (chars "mm"))
                          (.alt (.lit (chars "inch")) (.lit (chars "in")))))))))
              .wb)))))

/-- `\bflavour\s*[:\-]?\s*([A-Za-z ]+)` -/
def flavourRE : RE :=
  .seq .wb
    (.seq (.lit (chars "flavour"))
      (.seq (.starC pyWs)
        (.seq colonDashOpt
          (.seq (.starC pyWs)
            (.grp (.plusC (fun c =>
              ('A' ≤ c && c ≤ 'Z') || ('a' ≤ c && c ≤ 'z') || c = ' ')))))))

/-- `\bitem[s]?\s*count\s*[:\-]?\s*(\d+)` -/
def itemCountRE : RE :=
  .seq .wb
    (.seq (.lit (chars "item"))
      (.seq (.opt (.cls (fun c => c.toLower = 's')))
        (.seq (.starC pyWs)
          (.seq (.lit (chars "count"))
            (.seq (.starC pyWs)
              (.seq colonDashOpt
                (.seq (.starC pyWs) (.grp (.plusC Char.isDigit)))))))))

/-- `\bno(?:\.| of)?\s*pack(?:s)?\s*[:\-]?\s*(\d+)` -/
def packsRE : RE :=
  .seq .wb
    (.seq (.lit (chars "no"))
      (.seq (.opt (.alt (.lit (chars ".")) (.lit (chars " of"))))
        (.seq (.starC pyWs)
          (.seq (.lit (chars "pack"))
            (.seq (.opt (.cls (fun c => c.toLower = 's')))
              (.seq (.starC pyWs)
                (.seq colonDashOpt
                  (.seq (.starC pyWs) (.grp (.plusC Char.isDigit))))))))))

/-! ### `_parse_markdown_text` (helpers.py lines 12-71)

Each rule of the line loop becomes one definition; `stepLine` applies them
in the order of the source.  The prefix-triggered rules for
`product_name`, `brand`, `manufacturer` and `origin_country` assign
unconditionally, exactly as in the source; the regex rules and the
`ingredients` rule are guarded by `key not in result`. -/

/-- Split on the first colon and store the trimmed right-hand side. -/
def setFromColon (r : AList) (key : String) (line : String) : AList :=
  match splitColonOnce line with
  | some rhs => alSet r key (.str (pyStrip rhs))
  | Option.none => r

def rulePName (line lower : String) (r : AList) : AList :=
  if lcPre (chars "product name") lower.data ||
      lcPre (chars "name of product") lower.data then
    setFromColon r "product_name" line
  else r

def ruleBrand (line lower : String) (r : AList) : AList :=
  if lcPre (chars "brand") lower.data then setFromColon r "brand" line else r

def ruleManuf (line lower : String) (r : AList) : AList :=
  if lcPre (chars "manufactured by") lower.data ||
      lcPre (chars "produced by") lower.data then
    setFromColon r "manufacturer" line
  else r

def ruleOrigin (line lower : String) (r : AList) : AList :=
  if lcPre (chars "origin country") lower.data ||
      lcPre (chars "originated from") lower.data then
    setFromColon r "origin_country" line
  else r

/-- `m = re.search(...); if m and key not in result: result[key] = m.group(1).strip()` -/
def ruleRegex (re : RE) (key : String) (line : String) (r : AList) : AList :=
  match reGroupSearch re line with
  | some g => if alHas r key then r else alSet r key (.str (pyStrip g))
  | Option.none => r

def ruleIngredients (line lower : String) (r : AList) : AList :=
  if lcPre (chars "ingredients") lower.data then
    match splitColonOnce line with
    | some rhs =>
      if alHas r "ingredients" then r
      else alSet r "ingredients" (.str (pyStrip rhs))
    | Option.none => r
  else r

def ruleHalal (lower : String) (r : AList) : AList :=
  if lcContains lower.data (chars "halal") &&
      (lcContains lower.data (chars "yes") ||
        lcContains lower.data (chars "certified")) then
    alSet r "halal" (.vbool true)
  else r

def ruleGluten (lower : String) (r : AList) : AList :=
  if lcContains lower.data (chars "gluten free") ||
      lcContains lower.data (chars "gluten-free") then
    alSet r "gluten_free" (.vbool true)
  else r

/-- One iteration of the line loop of `_parse_markdown_text`. -/
def stepLine (r : AList) (l : String) : AList :=
  let line := pyStrip l
  let lower := lcLower line
  ruleRegex packsRE "no_of_packs" line
    (ruleRegex itemCountRE "item_count" line
      (ruleRegex flavourRE "flavour" line
        (ruleGluten lower
          (ruleHalal lower
            (ruleIngredients line lower
              (ruleRegex sizeRE "size" line
                (ruleRegex weightRE "weight" line
                  (ruleRegex priceRE "price" line
                    (ruleOrigin line lower
                      (ruleManuf line lower
                        (ruleBrand line lower
                          (rulePName line lower r))))))))))))

/-- `_parse_markdown_text`: fold the line rules over `text.splitlines()`
starting from the empty dict. -/
def parseMarkdownText (text : String) : AList :=
  (pySplitlines text).foldl stepLine []

/-- Does any rule of `_parse_markdown_text` fire (write or attempt to
write an entry) on this line?  Derived from the exact write conditions of
the source; used to state that unmatched lines contribute nothing. -/
def ruleFires (l : String) : Bool :=
  let line := pyStrip l
  let lower := lcLower line
  let lcd := lower.data
  ((lcPre (chars "product name") lcd || lcPre (chars "name of product") lcd) &&
      (splitColonOnce line).isSome) ||
    (lcPre (chars "brand") lcd && (splitColonOnce line).isSome) ||
    ((lcPre (chars "manufactured by") lcd || lcPre (chars "produced by") lcd) &&
      (splitColonOnce line).isSome) ||
    ((lcPre (chars "origin country") lcd || lcPre (chars "originated from") lcd) &&
      (splitColonOnce line).isSome) ||
    (reGroupSearch priceRE line).isSome ||
    (reGroupSearch weightRE line).isSome ||
    (reGroupSearch sizeRE line).isSome ||
    (lcPre (chars "ingredients") lcd && (splitColonOnce line).isSome) ||
    (lcContains lcd (chars "halal") &&
      (lcContains lcd (chars "yes") || lcContains lcd (chars "certified"))) ||
    (lcContains lcd (chars "gluten free") || lcContains lcd (chars "gluten-free")) ||
    (reGroupSearch flavourRE line).isSome ||
    (reGroupSearch itemCountRE line).isSome ||
    (reGroupSearch packsRE line).isSome

/-! ### The v1 schema (`scheamas/v1/schemas.py`) and pydantic construction

`ProductInfo(**extracted)` is embedded as an explicit validator over the
merged dict.  Pydantic's default configuration ignores unrecognized keys;
a missing required field or a value failing its declared type raises.
The model reports the first failing field in declaration order (pydantic
aggregates all errors; every claim below only needs which field fails).
Lax coercions that this pipeline can exercise are modelled: numeric
strings coerce to `int`, the usual boolean strings coerce to `bool`.
Numeric (`float`) leaves are modelled over `Int`. -/

structure Ingredient where
  name : String
  quantity : Option String := Option.none
  is_allergen : Bool := false

structure Nutrient where
  name : String
  quantity : Option Int := Option.none
  unit : Option String := Option.none
  daily_value_percent : Option Int := Option.none

structure Dimensions where
  length : Option Int := Option.none
  width : Option Int := Option.none
  height : Option Int := Option.none
  unit : Option String := some "cm"

structure ProductContent where
  value : Int
  unit : String

structure ProductInfo where
  product_name : String
  brand : Option String := Option.none
  flavor : Option String := Option.none
  product_description : Option String := Option.none
  price : Option String := Option.none
  is_promotional : Bool := false
  net_content : Option ProductContent := Option.none
  item_count : Option Int := Option.none
  dimensions : Option Dimensions := Option.none
  barcode : Option String := Option.none
  serving_size : Option String := Option.none
  servings_per_container : Option String := Option.none
  ingredients : Option (List Ingredient) := Option.none
  nutrition_facts : Option (List Nutrient) := Option.none
  allergens : Option (List String) := Option.none
  claims : Option (List String) := Option.none
  certifications : Option (List String) := Option.none
  manufacturer : Option String := Option.none
  distributor : Option String := Option.none
  country_of_origin : Option String := Option.none
  storage_instructions : Option String := Option.none
  expiration_date : Option String := Option.none
  batch_number : Option String := Option.none

/-- `ProductInfo.__fields__` in declaration order. -/
def fieldNames : List String :=
  ["product_name", "brand", "flavor", "product_description", "price",
   "is_promotional", "net_content", "item_count", "dimensions", "barcode",
   "serving_size", "servings_per_container", "ingredients",
   "nutrition_facts", "allergens", "claims", "certifications",
   "manufacturer", "distributor", "country_of_origin",
   "storage_instructions", "expiration_date", "batch_number"]

/-- A pydantic validation error, reduced to the failing field. -/
inductive VErr where
  | missing (f : String)
  | invalid (f : String)

/-- `str(e)` for the propagated exception message. -/
def VErr.msg : VErr → String
  | .missing f => "validation error: field required: " ++ f
  | .invalid f => "validation error: invalid value: " ++ f

def digitsToNat (ds : List Char) : Nat :=
  ds.foldl (fun a c => a * 10 + (c.toNat - '0'.toNat)) 0

/-- Pydantic lax `str -> int` coercion: optional whitespace and sign
around a digit string. -/
def parseIntStr (s : String) : Option Int :=
  match (pyStrip s).data with
  | '-' :: ds =>
    if ds ≠ [] && ds.all Char.isDigit then some (-(digitsToNat ds : Int))
    else Option.none
  | '+' :: ds =>
    if ds ≠ [] && ds.all Char.isDigit then some (digitsToNat ds : Int)
    else Option.none
  | ds =>
    if ds ≠ [] && ds.all Char.isDigit then some (digitsToNat ds : Int)
    else Option.none

/-- Pydantic lax `str -> bool` coercion set. -/
def boolStr? (s : String) : Option Bool :=
  let t := lcLower (pyStrip s)
  if t ∈ ["true", "t", "yes", "y", "on", "1"] then some true
  else if t ∈ ["false", "f", "no", "n", "off", "0"] then some false
  else Option.none

/-- Required `str` field. -/
def vReqStr (m : AList) (f : String) : Except VErr String :=
  match alGet m f with
  | Option.none => .error (.missing f)
  | some (.str s) => .ok s
  | some _ => .error (.invalid f)

/-- `Optional[str]` field. -/
def vOptStr (m : AList) (f : String) : Except VErr (Option String) :=
  match alGet m f with
  | Option.none => .ok Option.none
  | some .vnone => .ok Option.none
  | some (.str s) => .ok (some s)
  | some _ => .error (.invalid f)

/-- `Optional[int]` (and modelled `Optional[float]`) field. -/
def vOptInt (m : AList) (f : String) : Except VErr (Option Int) :=
  match alGet m f with
  | Option.none => .ok Option.none
  | some .vnone => .ok Option.none
  | some (.int n) => .ok (some n)
  | some (.str s) =>
    match parseIntStr s with
    | some n => .ok (some n)
    | Option.none => .error (.invalid f)
  | some _ => .error (.invalid f)

/-- `bool` field with default `False`. -/
def vBoolDef (m : AList) (f : String) : Except VErr Bool :=
  match alGet m f with
  | Option.none => .ok false
  | some (.vbool b) => .ok b
  | some (.str s) =>
    match boolStr? s with
    | some b => .ok b
    | Option.none => .error (.invalid f)
  | some (.int n) =>
    if n = 0 then .ok false
    else if n = 1 then .ok true
    else .error (.invalid f)
  | some _ => .error (.invalid f)

/-- A plain `str` list element; any nested failure is reported under the
outer field `f`. -/
def strOfVal (f : String) : Val → Except VErr String
  | .str s => .ok s
  | _ => .error (.invalid f)

/-- Lookup inside a nested dict, `str` required subfield. -/
def dReqStr (f : String) (d : AList) (sub : String) : Except VErr String :=
  match alGet d sub with
  | some (.str s) => .ok s
  | _ => .error (.invalid f)

def dOptStr (f : String) (d : AList) (sub : String) : Except VErr (Option String) :=
  match alGet d sub with
  | Option.none => .ok Option.none
  | some .vnone => .ok Option.none
  | some (.str s) => .ok (some s)
  | some _ => .error (.invalid f)

def dOptInt (f : String) (d : AList) (sub : String) : Except VErr (Option Int) :=
  match alGet d sub with
  | Option.none => .ok Option.none
  | some .vnone => .ok Option.none
  | some (.int n) => .ok (some n)
  | some (.str s) =>
    match parseIntStr s with
    | some n => .ok (some n)
    | Option.none => .error (.invalid f)
  | some _ => .error (.invalid f)

def dBoolDef (f : String) (d : AList) (sub : String) : Except VErr Bool :=
  match alGet d sub with
  | Option.none => .ok false
  | some (.vbool b) => .ok b
  | some (.str s) =>
    match boolStr? s with
    | some b => .ok b
    | Option.none => .error (.invalid f)
  | some (.int n) =>
    if n = 0 then .ok false
    else if n = 1 then .ok true
    else .error (.invalid f)
  | some _ => .error (.invalid f)

def ingredientOfVal (f : String) : Val → Except VErr Ingredient
  | .vdict d => do
    let name ← dReqStr f d "name"
    let quantity ← dOptStr f d "quantity"
    let ia ← dBoolDef f d "is_allergen"
    .ok { name := name, quantity := quantity, is_allergen := ia }
  | _ => .error (.invalid f)

def nutrientOfVal (f : String) : Val → Except VErr Nutrient
  | .vdict d => do
    let name ← dReqStr f d "name"
    let quantity ← dOptInt f d "quantity"
    let unit ← dOptStr f d "unit"
    let dv ← dOptInt f d "daily_value_percent"
    .ok { name := name, quantity := quantity, unit := unit,
          daily_value_percent := dv }
  | _ => .error (.invalid f)

def dimensionsOfVal (f : String) : Val → Except VErr Dimensions
  | .vdict d => do
    let l ← dOptInt f d "length"
    let w ← dOptInt f d "width"
    let h ← dOptInt f d "height"
    let unit ←
      match alGet d "unit" with
      | Option.none => Except.ok (some "cm")
      | some .vnone => Except.ok (Option.none : Option String)
      | some (.str s) => Except.ok (some s)
      | some _ => Except.error (VErr.invalid f)
    .ok { length := l, width := w, height := h, unit := unit }
  | _ => .error (.invalid f)

def productContentOfVal (f : String) : Val → Except VErr ProductContent
  | .vdict d => do
    let v ←
      match alGet d "value" with
      | some (.int n) => Except.ok n
      | some (.str s) =>
        match parseIntStr s with
        | some n => Except.ok n
        | Option.none => Except.error (VErr.invalid f)
      | _ => Except.error (VErr.invalid f)
    let unit ← dReqStr f d "unit"
    .ok { value := v, unit := unit }
  | _ => .error (.invalid f)

/-- An optional nested-model field. -/
def vOptModel (ofVal : String → Val → Except VErr α) (m : AList) (f : String) :
    Except VErr (Option α) :=
  match alGet m f with
  | Option.none => .ok Option.none
  | some .vnone => .ok Option.none
  | some v => do
    let a ← ofVal f v
    .ok (some a)

/-- An `Optional[List[...]]` field. -/
def vOptList (ofVal : String → Val → Except VErr α) (m : AList) (f : String) :
    Except VErr (Option (List α)) :=
  match alGet m f with
  | Option.none => .ok Option.none
  | some .vnone => .ok Option.none
  | some (.vlist xs) => do
    let ys ← xs.mapM (ofVal f)
    .ok (some ys)
  | some _ => .error (.invalid f)

/-- `ProductInfo(**m)`: validate each declared field of the v1 schema in
declaration order; unrecognized keys of `m` are ignored (pydantic default
`extra='ignore'`). -/
def validateProductInfo (m : AList) : Except VErr ProductInfo := do
  let product_name ← vReqStr m "product_name"
  let brand ← vOptStr m "brand"
  let flavor ← vOptStr m "flavor"
  let product_description ← vOptStr m "product_description"
  let price ← vOptStr m "price"
  let is_promotional ← vBoolDef m "is_promotional"
  let net_content ← vOptModel productContentOfVal m "net_content"
  let item_count ← vOptInt m "item_count"
  let dimensions ← vOptModel dimensionsOfVal m "dimensions"
  let barcode ← vOptStr m "barcode"
  let serving_size ← vOptStr m "serving_size"
  let servings_per_container ← vOptStr m "servings_per_container"
  let ingredients ← vOptList ingredientOfVal m "ingredients"
  let nutrition_facts ← vOptList nutrientOfVal m "nutrition_facts"
  let allergens ← vOptList strOfVal m "allergens"
  let claims ← vOptList strOfVal m "claims"
  let certifications ← vOptList strOfVal m "certifications"
  let manufacturer ← vOptStr m "manufacturer"
  let distributor ← vOptStr m "distributor"
  let country_of_origin ← vOptStr m "country_of_origin"
  let storage_instructions ← vOptStr m "storage_instructions"
  let expiration_date ← vOptStr m "expiration_date"
  let batch_number ← vOptStr m "batch_number"
  .ok { product_name := product_name, brand := brand, flavor := flavor,
        product_description := product_description, price := price,
        is_promotional := is_promotional, net_content := net_content,
        item_count := item_count, dimensions := dimensions,
        barcode := barcode, serving_size := serving_size,
        servings_per_container := servings_per_container,
        ingredients := ingredients, nutrition_facts := nutrition_facts,
        allergens := allergens, claims := claims,
        certifications := certifications, manufacturer := manufacturer,
        distributor := distributor, country_of_origin := country_of_origin,
        storage_instructions := storage_instructions,
        expiration_date := expiration_date, batch_number := batch_number }

/-! ### The OCR response contract and the merge engine
(`extract_product_info_from_ocr`, helpers.py lines 73-106)

Per the explicit optional-slot contract, the response exposes up to three
payloads.  `hasattr(...)` failing is `Option.none`; the source's
truthiness guards on present values are kept.  Bbox-annotation entries are
dicts (`item.get(...)` is dict access in the source). -/

/-- The `bbox_annotation` payload: a dict, or a list of per-detection
dicts. -/
inductive BboxAnn where
  | bdict (entries : List (String × Val))
  | blist (items : List AList)

/-- One OCR page: optional recognized markdown, optional `boxes` value
(the source checks `isinstance(page.boxes, list)` itself). -/
structure Page where
  markdown : Option String := Option.none
  boxes : Option Val := Option.none

/-- The OCR response with its three optional payloads. -/
structure OCRResponse where
  documentAnn : Option (List (String × Val)) := Option.none
  bboxAnn : Option BboxAnn := Option.none
  pages : Option (List Page) := Option.none

/-- `extracted.update(d)`: dict update, later duplicate keys of `d`
overwriting earlier ones. -/
def dictUpdate (m : AList) (d : List (String × Val)) : AList :=
  d.foldl (fun acc kv => alSet acc kv.1 kv.2) m

/-- Insert each entry whose key is not yet present (`if k not in
extracted: extracted[k] = v`). -/
def insertAbsent (m : AList) (d : List (String × Val)) : AList :=
  d.foldl (fun acc kv => if alHas acc kv.1 then acc else acc ++ [kv]) m

/-- One iteration of the bbox-annotation list branch:
`key = item.get("key"); val = item.get("value");
if key and val and key not in extracted: extracted[key] = val`. -/
def bboxItemStep (acc : AList) (item : AList) : AList :=
  match alGet item "key", alGet item "value" with
  | some (Val.str k), some v =>
    if k ≠ "" && v.truthy && !alHas acc k then acc ++ [(k, v)] else acc
  | _, _ => acc

/-- The effective mapping denoted by the bbox-annotation list branch: the
value of the first item offering the key with a truthy (nonempty) key and
a truthy value — exactly the entries the iteration of helpers.py lines
85-89 can write, first occurrence winning. -/
def blistGet : List AList → String → Option Val
  | [], _ => Option.none
  | item :: rest, k =>
    match alGet item "key", alGet item "value" with
    | some (Val.str k2), some v =>
      if k2 = k ∧ k2 ≠ "" ∧ v.truthy = true then some v else blistGet rest k
    | _, _ => blistGet rest k

/-- The effective lookup of either bbox-annotation form: plain dict
lookup for the mapping form, first-truthy-item lookup for the list
form. -/
def bboxLookup : BboxAnn → String → Option Val
  | .bdict b, k => alGet b k
  | .blist items, k => blistGet items k

/-- `"\n".join(page.markdown for page in pages if hasattr(page, "markdown"))` -/
def pagesText (ps : List Page) : String :=
  joinNL (ps.filterMap Page.markdown)

/-- The merged evidence dict built by `extract_product_info_from_ocr`
before construction: structured annotation first, then bbox-derived
entries for absent keys, then heuristic entries for still-absent keys. -/
def mergedEvidence (r : OCRResponse) : AList :=
  let e1 : AList :=
    match r.documentAnn with
    | some d => if d.isEmpty then [] else dictUpdate [] d
    | Option.none => []
  let e2 : AList :=
    match r.bboxAnn with
    | some (.bdict b) => if b.isEmpty then e1 else insertAbsent e1 b
    | some (.blist items) =>
      if items.isEmpty then e1 else items.foldl bboxItemStep e1
    | Option.none => e1
  match r.pages with
  | some ps => insertAbsent e2 (parseMarkdownText (pagesText ps))
  | Option.none => e2

/-- The `try/except` around `ProductInfo(**extracted)`: on failure, retry
with only the keys that are declared fields; a failure of the retry
propagates. -/
def buildProductInfo (extracted : AList) : Except VErr ProductInfo :=
  match validateProductInfo extracted with
  | .ok p => .ok p
  | .error _ =>
    validateProductInfo (extracted.filter (fun kv => kv.1 ∈ fieldNames))

/-- `extract_product_info_from_ocr`: merge the evidence, then construct
the record.  An uncaught validation error is the `.error` case. -/
def extractProductInfoFromOcr (r : OCRResponse) : Except VErr ProductInfo :=
  buildProductInfo (mergedEvidence r)

/-! ### `draw_bounding_boxes_on_image` (helpers.py lines 108-125)

The image is abstracted to an identifier plus the list of rectangles
drawn on the copy.  Page-level boxes are unpacked inside `try/except`
(wrong arity or a non-numeric coordinate is skipped); bbox-annotation
entries are guarded only by truthiness and `len(coords) == 4`, and
`draw.rectangle(coords, ...)` is outside any `try` — its exceptions
propagate. -/

abbrev PILImage := String

structure Rect where
  x0 : Int
  y0 : Int
  x1 : Int
  y1 : Int
  outline : String

/-- The image returned by the draw pass: the copied base image and the
rectangles drawn onto it. -/
structure Annotated where
  base : PILImage
  rects : List Rect

/-- A numeric coordinate (numeric leaves are modelled as integers;
Python `bool` is an `int` subtype). -/
def numCoord : Val → Option Int
  | .int n => some n
  | .vbool b => some (if b then 1 else 0)
  | _ => Option.none

/-- `draw.rectangle([x0, y0, x1, y1], ...)`: raises on non-numeric
coordinates or a flipped box. -/
def pilRectangle (cs : List Val) (outline : String) : Except String Rect :=
  match cs with
  | [a, b, c, d] =>
    match numCoord a, numCoord b, numCoord c, numCoord d with
    | some x0, some y0, some x1, some y1 =>
      if x1 < x0 || y1 < y0 then
        .error "ValueError: x1 must be greater than or equal to x0"
      else .ok { x0 := x0, y0 := y0, x1 := x1, y1 := y1, outline := outline }
    | _, _, _, _ => .error "TypeError: coordinates must be numeric"
  | _ => .error "ValueError: wrong number of coordinates"

/-- Sequence unpacking `x0, y0, x1, y1 = box`; non-sequences and wrong
arity raise (and are caught by the page-branch `except`). -/
def unpack4 : Val → Except String (List Val)
  | .vlist [a, b, c, d] => .ok [a, b, c, d]
  | _ => .error "ValueError: cannot unpack"

/-- The page-level branch: each box is drawn inside `try/except
Exception: pass`. -/
def drawPageBoxes (ps : List Page) : List Rect :=
  ps.foldl
    (fun acc page =>
      match page.boxes with
      | some (.vlist boxes) =>
        boxes.foldl
          (fun acc2 box =>
            match unpack4 box with
            | .ok cs =>
              match pilRectangle cs "red" with
              | .ok rect => acc2 ++ [rect]
              | .error _ => acc2
            | .error _ => acc2)
          acc
      | _ => acc)
    []

/-- The bbox-annotation branch: `coords = item.get("bbox"); if coords and
len(coords) == 4: draw.rectangle(coords, outline="blue", width=2)` — the
`len` call and the rectangle call may raise, uncaught. -/
def pyLen : Val → Except String Nat
  | .str s => .ok s.length
  | .vlist xs => .ok xs.length
  | .vdict es => .ok es.length
  | _ => .error "TypeError: object has no len"

def drawBboxItems (items : List AList) (acc : List Rect) :
    Except String (List Rect) :=
  match items with
  | [] => .ok acc
  | item :: rest => do
    let acc2 ←
      match alGet item "bbox" with
      | Option.none => Except.ok acc
      | some coords =>
        if coords.truthy then do
          let n ← pyLen coords
          if n = 4 then
            match coords with
            | .vlist cs => do
              let rect ← pilRectangle cs "blue"
              Except.ok (acc ++ [rect])
            | .str _ => Except.error "TypeError: coordinates must be numeric"
            | _ => Except.error "TypeError: invalid coordinates"
          else Except.ok acc
        else Except.ok acc
    drawBboxItems rest acc2

/-- `draw_bounding_boxes_on_image`: draw onto a copy, page boxes in red
(failures skipped), bbox-annotation boxes in blue (failures propagate). -/
def drawBoundingBoxesOnImage (image : PILImage) (r : OCRResponse) :
    Except String Annotated := do
  let pageRects :=
    match r.pages with
    | some ps => drawPageBoxes ps
    | Option.none => []
  let allRects ←
    match r.bboxAnn with
    | some (.blist items) => drawBboxItems items pageRects
    | _ => Except.ok pageRects
  .ok { base := image, rects := allRects }

/-! ### Per-image processing and the batch orchestrator
(`process_image_file`, `process_batch_images`, helpers.py lines 127-183)

The storage/OCR collaborators are an oracle of total functions returning
`Except`: an `.error` is a raised exception caught by the per-image
`try/except`.  The thread pool's nondeterministic `as_completed` order is
a parameter ranging over all permutations of the submitted indices. -/

structure MistralClient where
  fileContent : String → Except String String
  uploadId : String → String → Except String String
  signedUrl : String → Except String String
  ocrProcess : String → Except String OCRResponse
  imageOpen : String → Except String PILImage

/-- The body of the `try:` block of `process_image_file`. -/
def processImageBody (client : MistralClient) (image_path : String) :
    Except String (ProductInfo × Annotated) := do
  let content ← client.fileContent image_path
  let file_id ← client.uploadId image_path content
  let url ← client.signedUrl file_id
  let response ← client.ocrProcess url
  let info ←
    match extractProductInfoFromOcr response with
    | .ok p => Except.ok p
    | .error e => Except.error e.msg
  let orig_img ← client.imageOpen image_path
  let annotated_img ← drawBoundingBoxesOnImage orig_img response
  .ok (info, annotated_img)

/-- `process_image_file`: never raises; a caught exception becomes the
error component. -/
def processImageFile (client : MistralClient) (image_path : String) :
    Option ProductInfo × Option Annotated × Option String :=
  match processImageBody client image_path with
  | .ok (info, img) => (some info, some img, Option.none)
  | .error e => (Option.none, Option.none, some e)

structure BatchResult where
  path : String
  info : Option ProductInfo
  annotated_img : Option Annotated
  error : Option String

/-- The batch entry built for one completed future. -/
def batchEntry (client : MistralClient) (path : String) : BatchResult :=
  let out := processImageFile client path
  { path := path, info := out.1, annotated_img := out.2.1, error := out.2.2 }

/-- `process_batch_images`: one future per submitted path, results
appended in completion order.  `order` is the completion order, a
permutation of the submitted indices; `future.result()` cannot raise
because `process_image_file` catches everything, so the `except` branch
of the collection loop is dead. -/
def processBatchImages (client : MistralClient) (image_paths : List String)
    (order : List Nat) : List BatchResult :=
  order.map (fun i => batchEntry client (image_paths.getD i ""))

/-! ### Lemmas about the merge primitives -/

theorem alGet_insertAbsent (d : List (String × Val)) (m : AList) (k : String) :
    alGet (insertAbsent m d) k = oFirst (alGet m k) (alGet d k) := by
  induction d generalizing m with
  | nil =>
    cases h : alGet m k <;> simp [insertAbsent, alGet, oFirst, h]
  | cons kv rest ih =>
    obtain ⟨k2, v2⟩ := kv
    have hstep : insertAbsent m ((k2, v2) :: rest) =
        insertAbsent (if alHas m k2 then m else m ++ [(k2, v2)]) rest := by
      simp [insertAbsent]
    rw [hstep]
    by_cases h2 : alHas m k2
    · rw [if_pos h2, ih]
      obtain ⟨w, hw⟩ := Option.isSome_iff_exists.mp h2
      by_cases hk : k2 = k
      · subst hk
        simp [alGet, oFirst, hw]
      · simp [alGet, hk]
    · rw [if_neg h2, ih, alGet_append, oFirst_assoc]
      by_cases hk : k2 = k
      · subst hk
        simp [alGet, oFirst]
      · simp [alGet, hk, oFirst]

theorem alGet_dictUpdate (d : List (String × Val)) (m : AList) (k : String)
    (hnd : (d.map Prod.fst).Nodup) :
    alGet (dictUpdate m d) k = oFirst (alGet d k) (alGet m k) := by
  induction d generalizing m with
  | nil => simp [dictUpdate, alGet, oFirst]
  | cons kv rest ih =>
    obtain ⟨k2, v2⟩ := kv
    simp only [List.map_cons, List.nodup_cons] at hnd
    have hstep : dictUpdate m ((k2, v2) :: rest) =
        dictUpdate (alSet m k2 v2) rest := by
      simp [dictUpdate]
    rw [hstep, ih _ hnd.2]
    by_cases hk : k2 = k
    · subst hk
      rw [alGet_eq_none_of_not_mem rest _ hnd.1, alGet_alSet_self]
      simp [alGet, oFirst]
    · rw [alGet_alSet_of_ne _ _ _ _ (Ne.symm hk)]
      simp [alGet, hk]

/-! ### Lemmas about validation -/

theorem alGet_filter_declared (m : AList) (k : String) :
    alGet (m.filter (fun kv => kv.1 ∈ fieldNames)) k =
      if k ∈ fieldNames then alGet m k else Option.none := by
  induction m with
  | nil => by_cases h : k ∈ fieldNames <;> simp [alGet, h]
  | cons kv rest ih =>
    obtain ⟨k2, v2⟩ := kv
    by_cases hk : k2 = k
    · subst hk
      by_cases h2 : k2 ∈ fieldNames <;> simp [alGet, h2, ih]
    · by_cases h2 : k2 ∈ fieldNames <;> simp [alGet, hk, h2, ih]

theorem vReqStr_congr (m1 m2 : AList) (f : String)
    (h : alGet m1 f = alGet m2 f) : vReqStr m1 f = vReqStr m2 f := by
  unfold vReqStr
  rw [h]

theorem vOptStr_congr (m1 m2 : AList) (f : String)
    (h : alGet m1 f = alGet m2 f) : vOptStr m1 f = vOptStr m2 f := by
  unfold vOptStr
  rw [h]

theorem vOptInt_congr (m1 m2 : AList) (f : String)
    (h : alGet m1 f = alGet m2 f) : vOptInt m1 f = vOptInt m2 f := by
  unfold vOptInt
  rw [h]

theorem vBoolDef_congr (m1 m2 : AList) (f : String)
    (h : alGet m1 f = alGet m2 f) : vBoolDef m1 f = vBoolDef m2 f := by
  unfold vBoolDef
  rw [h]

theorem vOptModel_congr (ofVal : String → Val → Except VErr α)
    (m1 m2 : AList) (f : String) (h : alGet m1 f = alGet m2 f) :
    vOptModel ofVal m1 f = vOptModel ofVal m2 f := by
  unfold vOptModel
  rw [h]

theorem vOptList_congr (ofVal : String → Val → Except VErr α)
    (m1 m2 : AList) (f : String) (h : alGet m1 f = alGet m2 f) :
    vOptList ofVal m1 f = vOptList ofVal m2 f := by
  unfold vOptList
  rw [h]

/-- Pydantic construction reads only the declared fields of the input
dict: two dicts agreeing on every declared field validate identically. -/
theorem validate_congr (m1 m2 : AList)
    (h : ∀ f ∈ fieldNames, alGet m1 f = alGet m2 f) :
    validateProductInfo m1 = validateProductInfo m2 := by
  have h01 := vReqStr_congr m1 m2 "product_name" (h _ (by simp [fieldNames]))
  have h02 := vOptStr_congr m1 m2 "brand" (h _ (by simp [fieldNames]))
  have h03 := vOptStr_congr m1 m2 "flavor" (h _ (by simp [fieldNames]))
  have h04 := vOptStr_congr m1 m2 "product_description" (h _ (by simp [fieldNames]))
  have h05 := vOptStr_congr m1 m2 "price" (h _ (by simp [fieldNames]))
  have h06 := vBoolDef_congr m1 m2 "is_promotional" (h _ (by simp [fieldNames]))
  have h07 := vOptModel_congr productContentOfVal m1 m2 "net_content"
    (h _ (by simp [fieldNames]))
  have h08 := vOptInt_congr m1 m2 "item_count" (h _ (by simp [fieldNames]))
  have h09 := vOptModel_congr dimensionsOfVal m1 m2 "dimensions"
    (h _ (by simp [fieldNames]))
  have h10 := vOptStr_congr m1 m2 "barcode" (h _ (by simp [fieldNames]))
  have h11 := vOptStr_congr m1 m2 "serving_size" (h _ (by simp [fieldNames]))
  have h12 := vOptStr_congr m1 m2 "servings_per_container" (h _ (by simp [fieldNames]))
  have h13 := vOptList_congr ingredientOfVal m1 m2 "ingredients"
    (h _ (by simp [fieldNames]))
  have h14 := vOptList_congr nutrientOfVal m1 m2 "nutrition_facts"
    (h _ (by simp [fieldNames]))
  have h15 := vOptList_congr strOfVal m1 m2 "allergens" (h _ (by simp [fieldNames]))
  have h16 := vOptList_congr strOfVal m1 m2 "claims" (h _ (by simp [fieldNames]))
  have h17 := vOptList_congr strOfVal m1 m2 "certifications" (h _ (by simp [fieldNames]))
  have h18 := vOptStr_congr m1 m2 "manufacturer" (h _ (by simp [fieldNames]))
  have h19 := vOptStr_congr m1 m2 "distributor" (h _ (by simp [fieldNames]))
  have h20 := vOptStr_congr m1 m2 "country_of_origin" (h _ (by simp [fieldNames]))
  have h21 := vOptStr_congr m1 m2 "storage_instructions" (h _ (by simp [fieldNames]))
  have h22 := vOptStr_congr m1 m2 "expiration_date" (h _ (by simp [fieldNames]))
  have h23 := vOptStr_congr m1 m2 "batch_number" (h _ (by simp [fieldNames]))
  unfold validateProductInfo
  rw [h01]
  simp only [h02, h03, h04, h05, h06, h07, h08, h09, h10, h11, h12, h13,
    h14, h15, h16, h17, h18, h19, h20, h21, h22, h23]

/-- The degraded retry validates the same dict as far as pydantic can
see: filtering to declared keys never changes the validation outcome. -/
theorem validate_filter_declared (m : AList) :
    validateProductInfo (m.filter (fun kv => kv.1 ∈ fieldNames)) =
      validateProductInfo m := by
  apply validate_congr
  intro f hf
  rw [alGet_filter_declared]
  simp [hf]

/-- `buildProductInfo` collapses to plain validation: the fallback
construction can never rescue a failure, because unrecognized keys were
already ignored by the first attempt. -/
theorem buildProductInfo_eq_validate (m : AList) :
    buildProductInfo m = validateProductInfo m := by
  unfold buildProductInfo
  cases h : validateProductInfo m with
  | ok p => rfl
  | error e => rw [validate_filter_declared, h]

/-! ### Lemmas about the line rules -/

/-- The keys whose rules are guarded by `key not in result` in the
source; once written they are never overwritten. -/
def guardedKeys : List String :=
  ["price", "weight", "size", "ingredients", "flavour", "item_count",
   "no_of_packs"]

theorem setFromColon_preserves (r : AList) (kw line k : String) (v : Val)
    (hne : k ≠ kw) (h : alGet r k = some v) :
    alGet (setFromColon r kw line) k = some v := by
  unfold setFromColon
  cases splitColonOnce line with
  | none => exact h
  | some rhs => rw [alGet_alSet_of_ne _ _ _ _ hne]; exact h

theorem rulePName_preserves (line lower : String) (r : AList) (k : String)
    (v : Val) (hne : k ≠ "product_name") (h : alGet r k = some v) :
    alGet (rulePName line lower r) k = some v := by
  unfold rulePName
  split
  · exact setFromColon_preserves r _ line k v hne h
  · exact h

theorem ruleBrand_preserves (line lower : String) (r : AList) (k : String)
    (v : Val) (hne : k ≠ "brand") (h : alGet r k = some v) :
    alGet (ruleBrand line lower r) k = some v := by
  unfold ruleBrand
  split
  · exact setFromColon_preserves r _ line k v hne h
  · exact h

theorem ruleManuf_preserves (line lower : String) (r : AList) (k : String)
    (v : Val) (hne : k ≠ "manufacturer") (h : alGet r k = some v) :
    alGet (ruleManuf line lower r) k = some v := by
  unfold ruleManuf
  split
  · exact setFromColon_preserves r _ line k v hne h
  · exact h

theorem ruleOrigin_preserves (line lower : String) (r : AList) (k : String)
    (v : Val) (hne : k ≠ "origin_country") (h : alGet r k = some v) :
    alGet (ruleOrigin line lower r) k = some v := by
  unfold ruleOrigin
  split
  · exact setFromColon_preserves r _ line k v hne h
  · exact h

theorem ruleRegex_preserves (re : RE) (key line : String) (r : AList)
    (k : String) (v : Val) (h : alGet r k = some v) :
    alGet (ruleRegex re key line r) k = some v := by
  unfold ruleRegex
  cases reGroupSearch re line with
  | none => exact h
  | some g =>
    by_cases hk : k = key
    · subst hk
      have hhas : alHas r k = true := by simp [alHas, h]
      simp [hhas, h]
    · by_cases hh : alHas r key
      · simp [hh, h]
      · simp [hh, alGet_alSet_of_ne _ _ _ _ hk, h]

theorem ruleIngredients_preserves (line lower : String) (r : AList)
    (k : String) (v : Val) (h : alGet r k = some v) :
    alGet (ruleIngredients line lower r) k = some v := by
  unfold ruleIngredients
  split
  · cases splitColonOnce line with
    | none => exact h
    | some rhs =>
      by_cases hk : k = "ingredients"
      · subst hk
        have hhas : alHas r "ingredients" = true := by simp [alHas, h]
        simp [hhas, h]
      · by_cases hh : alHas r "ingredients"
        · simp [hh, h]
        · simp [hh, alGet_alSet_of_ne _ _ _ _ hk, h]
  · exact h

theorem ruleHalal_preserves (lower : String) (r : AList) (k : String)
    (v : Val) (hne : k ≠ "halal") (h : alGet r k = some v) :
    alGet (ruleHalal lower r) k = some v := by
  unfold ruleHalal
  split
  · rw [alGet_alSet_of_ne _ _ _ _ hne]; exact h
  · exact h

theorem ruleGluten_preserves (lower : String) (r : AList) (k : String)
    (v : Val) (hne : k ≠ "gluten_free") (h : alGet r k = some v) :
    alGet (ruleGluten lower r) k = some v := by
  unfold ruleGluten
  split
  · rw [alGet_alSet_of_ne _ _ _ _ hne]; exact h
  · exact h

/-- Once a guarded key holds a value, one more line never changes it. -/
theorem stepLine_preserves (l : String) (r : AList) (k : String) (v : Val)
    (hk : k ∈ guardedKeys) (h : alGet r k = some v) :
    alGet (stepLine r l) k = some v := by
  simp only [guardedKeys, List.mem_cons, List.not_mem_nil, or_false] at hk
  have hkp : k ≠ "product_name" ∧ k ≠ "brand" ∧ k ≠ "manufacturer" ∧
      k ≠ "origin_country" ∧ k ≠ "halal" ∧ k ≠ "gluten_free" := by
    rcases hk with rfl | rfl | rfl | rfl | rfl | rfl | rfl <;>
      refine ⟨?_, ?_, ?_, ?_, ?_, ?_⟩ <;> decide
  simp only [stepLine]
  apply ruleRegex_preserves
  apply ruleRegex_preserves
  apply ruleRegex_preserves
  apply ruleGluten_preserves _ _ _ _ hkp.2.2.2.2.2
  apply ruleHalal_preserves _ _ _ _ hkp.2.2.2.2.1
  apply ruleIngredients_preserves
  apply ruleRegex_preserves
  apply ruleRegex_preserves
  apply ruleRegex_preserves
  apply ruleOrigin_preserves _ _ _ _ _ hkp.2.2.2.1
  apply ruleManuf_preserves _ _ _ _ _ hkp.2.2.1
  apply ruleBrand_preserves _ _ _ _ _ hkp.2.1
  apply rulePName_preserves _ _ _ _ _ hkp.1
  exact h

/-- Folding further lines never changes a guarded key's value. -/
theorem foldl_stepLine_preserves (ls : List String) (r : AList) (k : String)
    (v : Val) (hk : k ∈ guardedKeys) (h : alGet r k = some v) :
    alGet (ls.foldl stepLine r) k = some v := by
  induction ls generalizing r with
  | nil => exact h
  | cons l rest ih =>
    exact ih (stepLine r l) (stepLine_preserves l r k v hk h)

/-! ### Lines matched by no rule leave the dict unchanged -/

theorem setFromColon_id (r : AList) (kw line : String)
    (h : splitColonOnce line = Option.none) : setFromColon r kw line = r := by
  unfold setFromColon
  rw [h]

theorem rulePName_id (line lower : String) (r : AList)
    (h : ((lcPre (chars "product name") lower.data ||
      lcPre (chars "name of product") lower.data) &&
      (splitColonOnce line).isSome) = false) :
    rulePName line lower r = r := by
  unfold rulePName
  split
  · rename_i hpre
    rw [hpre, Bool.true_and] at h
    exact setFromColon_id r _ line (Option.not_isSome_iff_eq_none.mp (by simp [h]))
  · rfl

theorem ruleBrand_id (line lower : String) (r : AList)
    (h : (lcPre (chars "brand") lower.data &&
      (splitColonOnce line).isSome) = false) :
    ruleBrand line lower r = r := by
  unfold ruleBrand
  split
  · rename_i hpre
    rw [hpre, Bool.true_and] at h
    exact setFromColon_id r _ line (Option.not_isSome_iff_eq_none.mp (by simp [h]))
  · rfl

theorem ruleManuf_id (line lower : String) (r : AList)
    (h : ((lcPre (chars "manufactured by") lower.data ||
      lcPre (chars "produced by") lower.data) &&
      (splitColonOnce line).isSome) = false) :
    ruleManuf line lower r = r := by
  unfold ruleManuf
  split
  · rename_i hpre
    rw [hpre, Bool.true_and] at h
    exact setFromColon_id r _ line (Option.not_isSome_iff_eq_none.mp (by simp [h]))
  · rfl

theorem ruleOrigin_id (line lower : String) (r : AList)
    (h : ((lcPre (chars "origin country") lower.data ||
      lcPre (chars "originated from") lower.data) &&
      (splitColonOnce line).isSome) = false) :
    ruleOrigin line lower r = r := by
  unfold ruleOrigin
  split
  · rename_i hpre
    rw [hpre, Bool.true_and] at h
    exact setFromColon_id r _ line (Option.not_isSome_iff_eq_none.mp (by simp [h]))
  · rfl

theorem ruleRegex_id (re : RE) (key line : String) (r : AList)
    (h : (reGroupSearch re line).isSome = false) :
    ruleRegex re key line r = r := by
  unfold ruleRegex
  have hn : reGroupSearch re line = Option.none :=
    Option.not_isSome_iff_eq_none.mp (by simp [h])
  rw [hn]

theorem ruleIngredients_id (line lower : String) (r : AList)
    (h : (lcPre (chars "ingredients") lower.data &&
      (splitColonOnce line).isSome) = false) :
    ruleIngredients line lower r = r := by
  unfold ruleIngredients
  split
  · rename_i hpre
    rw [hpre, Bool.true_and] at h
    have hn : splitColonOnce line = Option.none :=
      Option.not_isSome_iff_eq_none.mp (by simp [h])
    rw [hn]
  · rfl

theorem ruleHalal_id (lower : String) (r : AList)
    (h : (lcContains lower.data (chars "halal") &&
      (lcContains lower.data (chars "yes") ||
        lcContains lower.data (chars "certified"))) = false) :
    ruleHalal lower r = r := by
  unfold ruleHalal
  rw [if_neg (by simp [h])]

theorem ruleGluten_id (lower : String) (r : AList)
    (h : (lcContains lower.data (chars "gluten free") ||
      lcContains lower.data (chars "gluten-free")) = false) :
    ruleGluten lower r = r := by
  unfold ruleGluten
  rw [if_neg (by simp [h])]

/-- A line on which no rule fires contributes nothing. -/
theorem stepLine_id (l : String) (r : AList) (h : ruleFires l = false) :
    stepLine r l = r := by
  unfold ruleFires at h
  simp only [Bool.or_eq_false_iff] at h
  obtain ⟨⟨⟨⟨⟨⟨⟨⟨⟨⟨⟨⟨h1, h2⟩, h3⟩, h4⟩, h5⟩, h6⟩, h7⟩, h8⟩, h9⟩, h10⟩,
    h11⟩, h12⟩, h13⟩ := h
  simp only [stepLine]
  rw [rulePName_id _ _ _ h1, ruleBrand_id _ _ _ h2, ruleManuf_id _ _ _ h3,
    ruleOrigin_id _ _ _ h4, ruleRegex_id _ _ _ _ h5, ruleRegex_id _ _ _ _ h6,
    ruleRegex_id _ _ _ _ h7, ruleIngredients_id _ _ _ h8,
    ruleHalal_id _ _ h9, ruleGluten_id _ _ (Bool.or_eq_false_iff.mpr h10),
    ruleRegex_id _ _ _ _ h11,
    ruleRegex_id _ _ _ _ h12, ruleRegex_id _ _ _ _ h13]

/-- A text none of whose lines fires a rule parses to the empty dict. -/
theorem foldl_stepLine_id (ls : List String) (r : AList)
    (h : ∀ l ∈ ls, ruleFires l = false) : ls.foldl stepLine r = r := by
  induction ls with
  | nil => rfl
  | cons l rest ih =>
    rw [List.foldl_cons, stepLine_id l r (h l (by simp)),
      ih (fun x hx => h x (by simp [hx]))]

/-! ### Further shared lemmas -/

/-- One list-branch iteration, seen through lookups: stepping the
accumulator with one item and consulting the remaining items equals
consulting the accumulator and then the whole item list. -/
theorem blistGet_cons_step (item : AList) (rest : List AList) (m : AList)
    (k : String) :
    oFirst (alGet (bboxItemStep m item) k) (blistGet rest k) =
      oFirst (alGet m k) (blistGet (item :: rest) k) := by
  have hbl : blistGet (item :: rest) k =
      (match alGet item "key", alGet item "value" with
       | some (Val.str k2), some v =>
         if k2 = k ∧ k2 ≠ "" ∧ v.truthy = true then some v
         else blistGet rest k
       | _, _ => blistGet rest k) := rfl
  rw [hbl]
  unfold bboxItemStep
  cases hk : alGet item "key" with
  | none => rfl
  | some kv =>
    cases hv : alGet item "value" with
    | none => cases kv <;> rfl
    | some v =>
      cases kv with
      | vbool b => rfl
      | int n => rfl
      | vnone => rfl
      | vlist xs => rfl
      | vdict es => rfl
      | str k2 =>
        by_cases he : k2 = ""
        · simp [he, oFirst]
        · by_cases ht : v.truthy
          · by_cases hkk : k2 = k
            · subst hkk
              by_cases hhas : alHas m k2
              · obtain ⟨w, hw⟩ := Option.isSome_iff_exists.mp hhas
                simp [he, ht, hhas, hw, oFirst]
              · have hnone : alGet m k2 = Option.none :=
                  Option.not_isSome_iff_eq_none.mp hhas
                simp [he, ht, hhas, hnone, alGet_append, alGet, oFirst]
            · by_cases hhas : alHas m k2
              · simp [he, ht, hkk, hhas]
              · simp [he, ht, hkk, hhas, alGet_append, alGet,
                  oFirst_none_right]
          · simp [he, ht]

/-- Lookup characterization of the bbox-annotation list branch's fold. -/
theorem alGet_foldl_bboxItemStep (items : List AList) (m : AList)
    (k : String) :
    alGet (items.foldl bboxItemStep m) k =
      oFirst (alGet m k) (blistGet items k) := by
  induction items generalizing m with
  | nil => cases h : alGet m k <;> simp [blistGet, oFirst, h]
  | cons item rest ih =>
    rw [List.foldl_cons, ih, blistGet_cons_step]

/-- Lookup characterization of the merged evidence when all three sources
are present — the bbox annotation in either of its two forms (mapping or
ordered sequence of detections): structured beats bbox beats
heuristics. -/
theorem mergedEvidence_lookup (d : List (String × Val)) (bann : BboxAnn)
    (ps : List Page) (k : String) (hnd : (d.map Prod.fst).Nodup) :
    alGet (mergedEvidence
      { documentAnn := some d, bboxAnn := some bann, pages := some ps }) k =
      oFirst (alGet d k)
        (oFirst (bboxLookup bann k)
          (alGet (parseMarkdownText (pagesText ps)) k)) := by
  have he1 : alGet
      (match (some d : Option (List (String × Val))) with
        | some d0 => if d0.isEmpty then [] else dictUpdate [] d0
        | Option.none => ([] : AList)) k = alGet d k := by
    by_cases hd : d.isEmpty
    · rw [List.isEmpty_iff.mp hd]
      simp [alGet, dictUpdate]
    · simp only [hd]
      rw [if_neg (by simp [hd]), alGet_dictUpdate d [] k hnd]
      cases alGet d k <;> simp [oFirst, alGet]
  unfold mergedEvidence
  simp only []
  cases bann with
  | bdict b =>
    by_cases hb : b.isEmpty
    · rw [List.isEmpty_iff.mp hb] at *
      simp only [List.isEmpty_nil, if_true]
      rw [alGet_insertAbsent, he1]
      simp [alGet, oFirst, bboxLookup]
    · simp only [hb]
      rw [if_neg (by simp [hb]), alGet_insertAbsent, alGet_insertAbsent,
        he1, oFirst_assoc]
      rfl
  | blist items =>
    by_cases hi : items.isEmpty
    · rw [List.isEmpty_iff.mp hi] at *
      simp only [List.isEmpty_nil, if_true]
      rw [alGet_insertAbsent, he1]
      simp [blistGet, oFirst, bboxLookup]
    · simp only [hi]
      rw [if_neg (by simp [hi]), alGet_insertAbsent,
        alGet_foldl_bboxItemStep, he1, oFirst_assoc]
      rfl

/-- A dict with no `product_name` key fails validation on the required
first field. -/
theorem validate_missing_pn (m : AList)
    (h : alGet m "product_name" = Option.none) :
    validateProductInfo m = .error (.missing "product_name") := by
  unfold validateProductInfo vReqStr
  rw [h]
  rfl

/-- Indexing `List.range` back into the list recovers the list. -/
theorem map_getD_range (l : List α) (d : α) :
    (List.range l.length).map (fun i => l.getD i d) = l := by
  induction l with
  | nil => rfl
  | cons a t ih =>
    rw [List.length_cons, List.range_succ_eq_map, List.map_cons,
      List.map_map]
    simp only [List.getD_cons_zero]
    have hfun : ((fun i => (a :: t).getD i d) ∘ Nat.succ) =
        (fun i => t.getD i d) := by
      funext i
      simp [List.getD_cons_succ]
    rw [hfun, ih]

/-- The heuristic extractor's keys that have no counterpart of the same
name among the declared fields of `ProductInfo`. -/
def heurOnlyKeys : List String :=
  ["weight", "size", "halal", "gluten_free", "flavour", "origin_country",
   "no_of_packs"]

/-- The heuristic-only keys are not declared fields of `ProductInfo`. -/
theorem heurKeys_not_fields : ∀ k ∈ heurOnlyKeys, k ∉ fieldNames := by
  decide

/-! ### Concrete fixtures used by the claim theorems and witnesses -/

/-- An OCR response offering all three evidence sources, the bbox
annotation in its mapping form, with a key conflict on `brand` between
structured annotation and heuristics. -/
def sampleResponse : OCRResponse :=
  { documentAnn := some [("product_name", Val.str "N"), ("brand", Val.str "SB")],
    bboxAnn := some (.bdict [("barcode", Val.str "123")]),
    pages := some [{ markdown := some "Brand: HB\nPrice: $9" }] }

/-- The same evidence with the bbox annotation in its ordered-sequence
form (helpers.py lines 84-89), offering `brand` as well, so the key
conflicts across all three sources. -/
def sampleResponseList : OCRResponse :=
  { documentAnn := some [("product_name", Val.str "N"), ("brand", Val.str "SB")],
    bboxAnn := some (.blist
      [[("key", Val.str "barcode"), ("value", Val.str "123")],
       [("key", Val.str "brand"), ("value", Val.str "BB")]]),
    pages := some [{ markdown := some "Brand: HB\nPrice: $9" }] }

/-- A client whose per-image pipeline is never reached past the first
step (every operation raises). -/
def stubClient : MistralClient :=
  { fileContent := fun _ => .error "open failed",
    uploadId := fun _ _ => .error "upload failed",
    signedUrl := fun _ => .error "url failed",
    ocrProcess := fun _ => .error "ocr failed",
    imageOpen := fun _ => .error "image failed" }

/-- A client whose upload call raises. -/
def failingUploadClient : MistralClient :=
  { fileContent := fun _ => .ok "bytes",
    uploadId := fun _ _ => .error "upload failed",
    signedUrl := fun _ => .ok "url",
    ocrProcess := fun _ => .ok {},
    imageOpen := fun _ => .ok "img" }

/-! ### The claims -/

/-- C1: Merge precedence.  For every OCR response offering a structured
annotation mapping, a bbox annotation — in either of its two forms, a
mapping or an ordered sequence of detections — and recognized page text,
the merged mapping takes the structured value for every key present
there; bbox-derived entries fill only keys absent from the structured
annotation; heuristic entries fill only keys still absent after both.
In particular a key present in both the structured annotation and the
heuristic extraction keeps the structured value, and on concrete
responses with such a conflict on `brand` (one per bbox form) the final
validated record carries the structured value. -/
theorem claim_C1_merge_precedence :
    (∀ d bann ps k, (d.map Prod.fst).Nodup →
      alGet (mergedEvidence
        { documentAnn := some d, bboxAnn := some bann,
          pages := some ps }) k =
        oFirst (alGet d k)
          (oFirst (bboxLookup bann k)
            (alGet (parseMarkdownText (pagesText ps)) k))) ∧
    (∀ d bann ps k v w, (d.map Prod.fst).Nodup →
      alGet d k = some v →
      alGet (parseMarkdownText (pagesText ps)) k = some w →
      alGet (mergedEvidence
        { documentAnn := some d, bboxAnn := some bann,
          pages := some ps }) k = some v) ∧
    extractProductInfoFromOcr sampleResponse =
      .ok { product_name := "N", brand := some "SB", price := some "$9",
            barcode := some "123" } ∧
    extractProductInfoFromOcr sampleResponseList =
      .ok { product_name := "N", brand := some "SB", price := some "$9",
            barcode := some "123" } ∧
    alGet (parseMarkdownText
      (pagesText [{ markdown := some "Brand: HB\nPrice: $9" }])) "brand" =
      some (Val.str "HB") := by
  refine ⟨?_, ?_, rfl, rfl, rfl⟩
  · intro d bann ps k hnd
    exact mergedEvidence_lookup d bann ps k hnd
  · intro d bann ps k v w hnd hv hw
    rw [mergedEvidence_lookup d bann ps k hnd, hv]
    rfl

theorem claim_C1_witness :
    alGet (mergedEvidence
      { documentAnn := some [("brand", Val.str "SB")],
        bboxAnn := some (.blist [[("key", Val.str "brand"),
          ("value", Val.str "BB")]]),
        pages := some [{ markdown := some "Brand: HB" }] }) "brand" =
      oFirst (alGet [("brand", Val.str "SB")] "brand")
        (oFirst (bboxLookup (.blist [[("key", Val.str "brand"),
            ("value", Val.str "BB")]]) "brand")
          (alGet (parseMarkdownText
            (pagesText [{ markdown := some "Brand: HB" }])) "brand")) :=
  claim_C1_merge_precedence.1 [("brand", Val.str "SB")]
    (.blist [[("key", Val.str "brand"), ("value", Val.str "BB")]])
    [{ markdown := some "Brand: HB" }] "brand" (by decide)

/-- C2 fails as stated: the `brand` rule of `_parse_markdown_text` has no
`"brand" not in result` guard, so on two brand lines the second value is
the one stored — not the first. -/
theorem claim_C2_counterexample :
    alGet (parseMarkdownText "Brand: A\nBrand: B") "brand" =
      some (Val.str "B") ∧
    alGet (parseMarkdownText "Brand: A\nBrand: B") "brand" ≠
      some (Val.str "A") := by
  constructor
  · rfl
  · intro hcontra
    rw [show parseMarkdownText "Brand: A\nBrand: B" =
      [("brand", Val.str "B")] from rfl] at hcontra
    simp [alGet] at hcontra

/-- C2 (amended): first-match-wins holds for the guarded keys (`price`,
`weight`, `size`, `ingredients`, `flavour`, `item_count`,
`no_of_packs`) — once such a key is extracted from a prefix of the
lines, later lines never change the stored value; for the unguarded
prefix rules (`product_name`, `brand`, `manufacturer`,
`origin_country`) the last matching line wins, as the `brand` instance
shows. -/
theorem claim_C2_first_match :
    (∀ t n k v, k ∈ guardedKeys →
      alGet (((pySplitlines t).take n).foldl stepLine []) k = some v →
      alGet (parseMarkdownText t) k = some v) ∧
    alGet (parseMarkdownText "Brand: A\nBrand: B") "brand" =
      some (Val.str "B") := by
  constructor
  · intro t n k v hk h
    unfold parseMarkdownText
    rw [← List.take_append_drop n (pySplitlines t), List.foldl_append]
    exact foldl_stepLine_preserves _ _ k v hk h
  · rfl

theorem claim_C2_witness :
    alGet (parseMarkdownText "Price: $4.99\nPrice: $5.00") "price" =
      some (Val.str "$4.99") :=
  claim_C2_first_match.1 "Price: $4.99\nPrice: $5.00" 1 "price"
    (Val.str "$4.99") (by decide) rfl

/-- C3 fails as stated: the fallback keeps invalid values sitting under
declared keys (it filters only by key name), so a mapping whose required
keys are valid can still fail both constructions — here `ingredients`
holds a string where a list of ingredient objects is required. -/
theorem claim_C3_counterexample :
    buildProductInfo
      [("product_name", Val.str "X"),
       ("ingredients", Val.str "flour, sugar")] =
      .error (.invalid "ingredients") := rfl

/-- C3 (amended): on failure the construction is retried with only the
declared-field keys, discarding unrecognized keys but not invalid values
under declared keys; since pydantic already ignores unrecognized keys,
the retry never changes the outcome.  A mapping with one unrecognized
extra key (of any value) and a valid `product_name` succeeds, and the
returned record omits the extra key. -/
theorem claim_C3_degradation :
    (∀ m, buildProductInfo m = validateProductInfo m) ∧
    (∀ s v, buildProductInfo
      [("product_name", Val.str s), ("not_a_field", v)] =
      .ok { product_name := s }) := by
  refine ⟨buildProductInfo_eq_validate, ?_⟩
  intro s v
  rfl

/-- C4: a merged mapping with no `product_name` key fails construction on
both the initial attempt and the degraded retry, and the resulting error
identifies `product_name` as the missing field. -/
theorem claim_C4_required_field_absence (m : AList)
    (h : alGet m "product_name" = Option.none) :
    validateProductInfo m = .error (.missing "product_name") ∧
    validateProductInfo (m.filter (fun kv => kv.1 ∈ fieldNames)) =
      .error (.missing "product_name") ∧
    buildProductInfo m = .error (.missing "product_name") := by
  have h2 : alGet (m.filter (fun kv => kv.1 ∈ fieldNames))
      "product_name" = Option.none := by
    rw [alGet_filter_declared]
    simp [fieldNames, h]
  refine ⟨validate_missing_pn m h, validate_missing_pn _ h2, ?_⟩
  unfold buildProductInfo
  rw [validate_missing_pn m h]
  exact validate_missing_pn _ h2

theorem claim_C4_witness :
    buildProductInfo [("brand", Val.str "X")] =
      .error (.missing "product_name") :=
  (claim_C4_required_field_absence [("brand", Val.str "X")] rfl).2.2

/-- C5: for every list of N image paths and every completion order of the
thread pool, the batch returns exactly N results, the multiset of result
paths is exactly the multiset of input paths, and every result is the
per-image outcome for the path it carries. -/
theorem claim_C5_batch_completeness (client : MistralClient)
    (paths : List String) (order : List Nat)
    (h : order.Perm (List.range paths.length)) :
    (processBatchImages client paths order).length = paths.length ∧
    ((processBatchImages client paths order).map BatchResult.path).Perm
      paths ∧
    ∀ res ∈ processBatchImages client paths order,
      res = batchEntry client res.path := by
  refine ⟨?_, ?_, ?_⟩
  · unfold processBatchImages
    rw [List.length_map, h.length_eq, List.length_range]
  · unfold processBatchImages
    rw [List.map_map]
    have hfun : (BatchResult.path ∘ fun i => batchEntry client
        (paths.getD i "")) = (fun i => paths.getD i "") := by
      funext i
      rfl
    rw [hfun]
    have hperm := h.map (fun i => paths.getD i "")
    rw [map_getD_range] at hperm
    exact hperm
  · intro res hres
    unfold processBatchImages at hres
    obtain ⟨i, hi, rfl⟩ := List.mem_map.mp hres
    rfl

theorem claim_C5_witness :
    (processBatchImages stubClient ["a.png", "b.png"] [1, 0]).length =
      ["a.png", "b.png"].length ∧
    ((processBatchImages stubClient ["a.png", "b.png"] [1, 0]).map
      BatchResult.path).Perm ["a.png", "b.png"] ∧
    ∀ res ∈ processBatchImages stubClient ["a.png", "b.png"] [1, 0],
      res = batchEntry stubClient res.path :=
  claim_C5_batch_completeness stubClient ["a.png", "b.png"] [1, 0]
    (by decide)

/-- C6: an image whose file read succeeds but whose upload, signed-URL or
OCR call raises is caught at the per-image boundary and yields
`(None, None, message)`; and in any batch, every submitted image's entry
is its standalone per-image outcome, so one image's failure never aborts
the others. -/
theorem claim_C6_failure_isolation :
    (∀ client p c e, client.fileContent p = .ok c →
      client.uploadId p c = .error e →
      processImageFile client p = (Option.none, Option.none, some e)) ∧
    (∀ client p c fid e, client.fileContent p = .ok c →
      client.uploadId p c = .ok fid →
      client.signedUrl fid = .error e →
      processImageFile client p = (Option.none, Option.none, some e)) ∧
    (∀ client p c fid url e, client.fileContent p = .ok c →
      client.uploadId p c = .ok fid →
      client.signedUrl fid = .ok url →
      client.ocrProcess url = .error e →
      processImageFile client p = (Option.none, Option.none, some e)) ∧
    (∀ client paths order i, i ∈ order →
      batchEntry client (paths.getD i "") ∈
        processBatchImages client paths order) := by
  refine ⟨?_, ?_, ?_, ?_⟩
  · intro client p c e h1 h2
    simp [processImageFile, processImageBody, h1, h2, bind, Except.bind]
  · intro client p c fid e h1 h2 h3
    simp [processImageFile, processImageBody, h1, h2, h3, bind, Except.bind]
  · intro client p c fid url e h1 h2 h3 h4
    simp [processImageFile, processImageBody, h1, h2, h3, h4, bind,
      Except.bind]
  · intro client paths order i hi
    exact List.mem_map_of_mem _ hi

theorem claim_C6_witness :
    processImageFile failingUploadClient "a.png" =
      (Option.none, Option.none, some "upload failed") :=
  claim_C6_failure_isolation.1 failingUploadClient "a.png" "bytes"
    "upload failed" rfl rfl

/-- C7: the heuristic extractor is a total function of its input text —
the empty text parses to the empty mapping, a line on which no rule
fires leaves the mapping unchanged, and a text none of whose lines fires
a rule parses to the empty mapping. -/
theorem claim_C7_extractor_totality :
    parseMarkdownText "" = [] ∧
    (∀ l r, ruleFires l = false → stepLine r l = r) ∧
    (∀ t, (∀ l ∈ pySplitlines t, ruleFires l = false) →
      parseMarkdownText t = []) := by
  refine ⟨rfl, fun l r h => stepLine_id l r h, fun t h => ?_⟩
  unfold parseMarkdownText
  exact foldl_stepLine_id _ _ h

theorem claim_C7_witness :
    parseMarkdownText "hello world\n12345" = [] :=
  claim_C7_extractor_totality.2.2 "hello world\n12345" (by decide)

/-- C8 fails as stated: the price pattern requires the currency symbol —
`([₹$]\s?\d+[.,]?\d*)` — so a price line with a numeric value but no
symbol stores nothing. -/
theorem claim_C8_counterexample :
    parseMarkdownText "Price: 4.99" = [] ∧
    alGet (parseMarkdownText "Price: 4.99") "price" = Option.none :=
  ⟨rfl, rfl⟩

/-- C8 (amended): the price rule requires a currency symbol (₹ or $,
optionally followed by one space) before the numeric value; with a
symbol the stated examples hold: "Price: $4.99" yields price "$4.99",
"Weight: 250g" yields weight "250g", and "Gluten Free product" yields
gluten_free true. -/
theorem claim_C8_price_examples :
    parseMarkdownText "Price: $4.99" = [("price", Val.str "$4.99")] ∧
    parseMarkdownText "Weight: 250g" = [("weight", Val.str "250g")] ∧
    parseMarkdownText "Gluten Free product" =
      [("gluten_free", Val.vbool true)] ∧
    alGet (parseMarkdownText "MRP ₹120") "price" = some (Val.str "₹120") ∧
    alGet (parseMarkdownText "price - $ 30") "price" =
      some (Val.str "$ 30") :=
  ⟨rfl, rfl, rfl, rfl, rfl⟩

/-- C9 fails as stated: page-level boxes are drawn inside `try/except`,
but a bbox-annotation entry whose `bbox` has exactly 4 entries reaches
`draw.rectangle` outside any `try` — with non-numeric coordinates the
call raises and the exception propagates out of the draw pass. -/
theorem claim_C9_counterexample :
    drawBoundingBoxesOnImage "img"
      { bboxAnn := some (.blist [[("bbox",
          Val.vlist [Val.str "a", Val.str "b", Val.str "c",
            Val.str "d"])]]) } =
      .error "TypeError: coordinates must be numeric" := rfl

/-- C9 (amended): the draw pass works on a copy of the image; malformed
page-level boxes (wrong arity or non-numeric coordinates) are skipped
silently — with no bbox annotation the pass never raises — and
bbox-annotation entries of wrong arity are skipped; a box list with one
3-coordinate entry and one valid entry draws exactly one rectangle, in
either branch.  Only a 4-element non-numeric bbox-annotation entry
raises. -/
theorem claim_C9_overlay :
    (∀ img ps, ∃ a, drawBoundingBoxesOnImage img
      { documentAnn := Option.none, bboxAnn := Option.none,
        pages := some ps } = .ok a) ∧
    drawBoundingBoxesOnImage "img"
      { pages := some [{ boxes := some (.vlist
          [Val.vlist [Val.int 1, Val.int 2, Val.int 3],
           Val.vlist [Val.int 10, Val.int 20, Val.int 30,
             Val.int 40]]) }] } =
      .ok { base := "img", rects := [⟨10, 20, 30, 40, "red"⟩] } ∧
    drawBoundingBoxesOnImage "img"
      { bboxAnn := some (.blist
          [[("bbox", Val.vlist [Val.int 1, Val.int 2, Val.int 3])],
           [("bbox", Val.vlist [Val.int 1, Val.int 2, Val.int 3,
             Val.int 4])]]) } =
      .ok { base := "img", rects := [⟨1, 2, 3, 4, "blue"⟩] } := by
  refine ⟨?_, rfl, rfl⟩
  intro img ps
  exact ⟨{ base := img, rects := drawPageBoxes ps }, rfl⟩

/-- C10: the heuristic keys `weight`, `size`, `halal`, `gluten_free`,
`flavour`, `origin_country` and `no_of_packs` are not declared fields of
`ProductInfo`, so entries under them are discarded by the degraded
fallback and never populate any field of the returned record — adding or
changing such an entry never changes the construction result. -/
theorem claim_C10_heuristic_keys_discarded :
    (∀ k ∈ heurOnlyKeys, k ∉ fieldNames) ∧
    (∀ m k v, k ∈ heurOnlyKeys →
      buildProductInfo (alSet m k v) = buildProductInfo m) := by
  refine ⟨heurKeys_not_fields, ?_⟩
  intro m k v hk
  rw [buildProductInfo_eq_validate, buildProductInfo_eq_validate]
  apply validate_congr
  intro f hf
  apply alGet_alSet_of_ne
  intro heq
  exact heurKeys_not_fields k hk (heq ▸ hf)

theorem claim_C10_witness :
    buildProductInfo
      (alSet [("product_name", Val.str "P")] "weight" (Val.str "250g")) =
      buildProductInfo [("product_name", Val.str "P")] :=
  claim_C10_heuristic_keys_discarded.2 [("product_name", Val.str "P")]
    "weight" (Val.str "250g") (by decide)

end ProductOcr
